import Mathlib

/-!
# StoragePool service lifecycle (`pkg/syncer/storagepool/service.go`)

A shallow embedding of the package-level registry `defaultStoragePoolService`,
of `InitStoragePoolService`, its background activator goroutine, the accessors
and `ResetVC`.

Modelling conventions.

* A Go pointer is `Ptr = Option Nat`: `none` is `nil`, `some a` is the object at
  address `a`.  The three controller types are distinct Go types, so each has a
  heap of its own; of a controller only the `vc` field is modelled, the one
  field this file reads or writes.
* A Go `error` is `Option Error`, `none` being `nil`.
* Calls that leave the file (`config.GetConfig`, `ConnectPbm`, the controller
  constructors, the feature-state query, ...) are fields of an environment
  record; the calls made are recorded, in program order, as `Event`s.
* A run-time panic (nil dereference) is an explicit outcome; deferred calls run
  before the function is left.
-/

namespace StoragePool

/-! ## Data model -/

/-- A Go pointer: `none` is nil, `some a` the object at address `a`. -/
abbrev Ptr := Option Nat

/-- A non-nil Go `error` value. -/
structure Error where
  code : Nat
  deriving DecidableEq, Repr

/-- The levels of the logger used in the file. -/
inductive LogLevel where
  | Infof | Errorf | Warnf | Debugf
  deriving DecidableEq, Repr

/-- Calls that leave the file, and lock operations, in program order. -/
inductive Event where
  | log (level : LogLevel) (msg : String)
  | GetConfig
  | NewForConfig (cfg : Ptr)
  | createCustomResourceDefinition (clientset : Ptr) (plural kind : String)
  | GetVirtualCenterInstance
  | ConnectPbm (vc : Ptr)
  | newSPController (vc : Ptr) (clusterID : String)
  | startStorageClassWatch (spController : Ptr) (cfg : Ptr)
  | initMigrationController (vc : Ptr) (clusterID : String)
  | go
  | startPropertyCollectorListener
  | Lock
  | Unlock
  | NewTicker
  | tickerStop
  | tickerC
  | GetContainerOrchestratorInterface
  | IsFSSEnabled (enabled : Bool)
  | initDiskDecommController (migrationController : Ptr) (err : Option Error)
  deriving DecidableEq, Repr

/-- The struct `Service` (lines 39-44): three controller pointers and the
cluster id. -/
structure Service where
  spController : Ptr
  scWatchCntlr : Ptr
  migrationCntlr : Ptr
  clusterID : String
  deriving DecidableEq, Repr

/-- The value `new(Service)` of line 47: every field is its zero value. -/
def Service.zero : Service :=
  { spController := none, scWatchCntlr := none, migrationCntlr := none, clusterID := "" }

/-- The `vc` fields of the controller objects, one heap per controller type
(`SpController`, `StorageClassWatch`, `migrationController`). -/
structure Heap where
  spControllerVc : Nat → Ptr
  storageClassWatchVc : Nat → Ptr
  migrationControllerVc : Nat → Ptr

/-- A field store `obj.vc = v` on the object at address `a`. -/
def store (h : Nat → Ptr) (a : Nat) (v : Ptr) : Nat → Ptr :=
  fun b => if b = a then v else h b

/-- The package state: the registry `*defaultStoragePoolService` and the
controller objects it may point to. -/
structure State where
  service : Service
  heap : Heap

/-- How a call ends: it returns, or it panics. -/
inductive Outcome where
  | returned
  | panicked
  deriving DecidableEq, Repr

/-- Result of a call of `ResetVC`. -/
structure ResetResult where
  outcome : Outcome
  state : State
  events : List Event

/-- `GetStoragePoolService` (lines 142-144): the registry pointer is handed
out as it is; no lock is taken. -/
def GetStoragePoolService (st : State) : Service := st.service

/-- `GetScWatch` (lines 147-149). -/
def Service.GetScWatch (sps : Service) : Ptr := sps.scWatchCntlr

/-- `GetSPController` (lines 152-154). -/
def Service.GetSPController (sps : Service) : Ptr := sps.spController

/-- The handle held by the capacity controller the registry points to, if the
reference is non-nil. -/
def State.spVc (st : State) : Option Ptr :=
  st.service.spController.map st.heap.spControllerVc

/-- The handle held by the storage-class watcher. -/
def State.scVc (st : State) : Option Ptr :=
  st.service.scWatchCntlr.map st.heap.storageClassWatchVc

/-- The handle held by the migration controller. -/
def State.migVc (st : State) : Option Ptr :=
  st.service.migrationCntlr.map st.heap.migrationControllerVc

/-- All three controller references of the registry are non-nil. -/
def Service.populated (s : Service) : Prop :=
  s.spController ≠ none ∧ s.scWatchCntlr ≠ none ∧ s.migrationCntlr ≠ none

instance (s : Service) : Decidable s.populated := by
  unfold Service.populated; infer_instance

/-! ## `ResetVC` (lines 158-178) -/

/-- `ResetVC`.  `ConnectPbm` is the outcome of `vc.ConnectPbm(ctx)` at the time
of this call.  The three stores of lines 173-175 are made in order; a nil
controller reference panics at its store, after the stores before it, and the
deferred `Unlock` runs. -/
def ResetVC (ConnectPbm : Ptr → Option Error) (vc : Ptr) (st : State) : ResetResult :=
  match vc with
  | none =>
    ⟨.returned, st, [.log .Errorf "VirtualCenter not given to Reset"]⟩
  | some v =>
    match ConnectPbm (some v) with
    | some _ =>
      ⟨.returned, st,
        [.ConnectPbm (some v), .log .Errorf "Failed to connect to SPBM service. Err: %+v"]⟩
    | none =>
      let pre : List Event :=
        [.ConnectPbm (some v), .log .Infof "Resetting VC connection in StoragePool service",
          .Lock]
      match st.service.spController with
      | none => ⟨.panicked, st, pre ++ [.Unlock]⟩
      | some sp =>
        let st1 : State :=
          { st with heap := { st.heap with
              spControllerVc := store st.heap.spControllerVc sp (some v) } }
        match st1.service.scWatchCntlr with
        | none => ⟨.panicked, st1, pre ++ [.Unlock]⟩
        | some sc =>
          let st2 : State :=
            { st1 with heap := { st1.heap with
                storageClassWatchVc := store st1.heap.storageClassWatchVc sc (some v) } }
          match st2.service.migrationCntlr with
          | none => ⟨.panicked, st2, pre ++ [.Unlock]⟩
          | some mc =>
            let st3 : State :=
              { st2 with heap := { st2.heap with
                  migrationControllerVc := store st2.heap.migrationControllerVc mc (some v) } }
            ⟨.returned, st3,
              pre ++ [.log .Debugf "Successfully reset VC connection in StoragePool service",
                .Unlock]⟩

/-- One call of `ResetVC`: the handle passed and what `ConnectPbm` answers
when that call is made. -/
structure ResetCall where
  ConnectPbm : Ptr → Option Error
  vc : Ptr

/-- A sequence of `ResetVC` calls, one after the other; the result of every
call is kept.  A panic ends the process, so no call follows it. -/
def ResetVCs : List ResetCall → State → List ResetResult
  | [], _ => []
  | c :: cs, st =>
    let r := ResetVC c.ConnectPbm c.vc st
    match r.outcome with
    | .returned => r :: ResetVCs cs r.state
    | .panicked => [r]

/-- The three controllers the registry points to all hold the handle `h`. -/
def State.holdsAll (st : State) (h : Ptr) : Prop :=
  st.spVc = some h ∧ st.scVc = some h ∧ st.migVc = some h

instance (st : State) (h : Ptr) : Decidable (st.holdsAll h) := by
  unfold State.holdsAll; infer_instance

/-! ## `InitStoragePoolService` (lines 53-139) -/

/-- The part `Cfg.Global` of the configuration that the file reads. -/
structure Global where
  ClusterID : String
  deriving DecidableEq, Repr

/-- The configuration `configInfo.Cfg`; `FeatureStatesConfig` is only passed
on to the orchestrator interface. -/
structure Config where
  Global : Global
  FeatureStatesConfig : Nat
  deriving DecidableEq, Repr

/-- The type `commontypes.ConfigInfo`. -/
structure ConfigInfo where
  Cfg : Config
  deriving DecidableEq, Repr

/-- Outcomes of the calls `InitStoragePoolService` makes outside the file, as
functions of the arguments passed.  A pair is Go's `(value, err)`. -/
structure InitEnv where
  GetConfig : Ptr × Option Error
  NewForConfig : Ptr → Ptr × Option Error
  createCustomResourceDefinition : Ptr → String → String → Option Error
  GetVirtualCenterInstance : Option ConfigInfo → Ptr × Option Error
  ConnectPbm : Ptr → Option Error
  newSPController : Ptr → String → Ptr × Option Error
  startStorageClassWatch : Ptr → Ptr → Ptr × Option Error
  initMigrationController : Ptr → String → Ptr

/-- How `InitStoragePoolService` ends: it returns its `error`, or panics. -/
inductive InitOutcome where
  | returned (err : Option Error)
  | panicked
  deriving DecidableEq, Repr

/-- Result of a call of `InitStoragePoolService`: the registry afterwards and
the calls made. -/
structure InitResult where
  outcome : InitOutcome
  service : Service
  events : List Event

/-- `InitStoragePoolService`, acting on the registry `svc`.  The constructors
allocate the controller objects; the function itself stores into the four
registry fields only (lines 130-133).  `configInfo` is a pointer, so the read
`configInfo.Cfg.Global.ClusterID` of line 92 panics when it is nil. -/
def InitStoragePoolService (env : InitEnv) (configInfo : Option ConfigInfo) (svc : Service) :
    InitResult :=
  let e0 : List Event := [.log .Infof "Initializing Storage Pool Service", .GetConfig]
  match env.GetConfig with
  | (_, some err) =>
    ⟨.returned (some err), svc,
      e0 ++ [.log .Errorf "Failed to get Kubernetes config. Err: %+v"]⟩
  | (cfg, none) =>
    let e1 := e0 ++ [.NewForConfig cfg]
    match env.NewForConfig cfg with
    | (_, some err) =>
      ⟨.returned (some err), svc,
        e1 ++ [.log .Errorf "Failed to create Kubernetes client using config. Err: %+v"]⟩
    | (apiextensionsClientSet, none) =>
      let crdKind := "StoragePool"
      let e2 := e1 ++ [.createCustomResourceDefinition apiextensionsClientSet "storagepools" crdKind]
      match env.createCustomResourceDefinition apiextensionsClientSet "storagepools" crdKind with
      | some err =>
        ⟨.returned (some err), svc, e2 ++ [.log .Errorf "Failed to create %q CRD. Err: %+v"]⟩
      | none =>
        let e3 := e2 ++ [.GetVirtualCenterInstance]
        match env.GetVirtualCenterInstance configInfo with
        | (_, some err) =>
          ⟨.returned (some err), svc,
            e3 ++ [.log .Errorf "Failed to get vCenter from ConfigInfo. Err: %+v"]⟩
        | (vc, none) =>
          let e4 := e3 ++ [.ConnectPbm vc]
          match env.ConnectPbm vc with
          | some err =>
            ⟨.returned (some err), svc,
              e4 ++ [.log .Errorf "Failed to connect to SPBM service. Err: %+v"]⟩
          | none =>
            match configInfo with
            | none => ⟨.panicked, svc, e4⟩
            | some ci =>
              let clusterID := ci.Cfg.Global.ClusterID
              let e5 := e4 ++ [.newSPController vc clusterID]
              match env.newSPController vc clusterID with
              | (_, some err) =>
                ⟨.returned (some err), svc,
                  e5 ++ [.log .Errorf "Failed starting StoragePool controller. Err: %+v"]⟩
              | (spController, none) =>
                let e6 := e5 ++ [.startStorageClassWatch spController cfg]
                match env.startStorageClassWatch spController cfg with
                | (_, some err) =>
                  ⟨.returned (some err), svc,
                    e6 ++ [.log .Errorf "Failed starting the Storageclass watch. Err: %+v"]⟩
                | (scWatchCntlr, none) =>
                  let migrationController := env.initMigrationController vc clusterID
                  let svc1 := { svc with spController := spController }
                  let svc2 := { svc1 with scWatchCntlr := scWatchCntlr }
                  let svc3 := { svc2 with migrationCntlr := migrationController }
                  let svc4 := { svc3 with clusterID := clusterID }
                  ⟨.returned none, svc4,
                    e6 ++ [.initMigrationController vc clusterID, .go, .Lock,
                      .startPropertyCollectorListener,
                      .log .Infof "Done initializing Storage Pool Service", .Unlock]⟩

/-! ## The activator goroutine (lines 105-125) -/

/-- What the activator goroutine meets: the orchestrator interface obtained on
tick `t` (nil when none is; the second return value is discarded by line 113),
the answer of `IsFSSEnabled` on tick `t`, and the error returned by the
`n`-th call of `initDiskDecommController`, counted from 0. -/
structure ActivatorEnv where
  GetContainerOrchestratorInterface : Nat → Ptr
  IsFSSEnabled : Nat → Bool
  initDiskDecommController : Nat → Option Error

/-- Where the loop of line 109 stands: still iterating, left by `break`, or
stopped by a panic. -/
inductive LoopStatus where
  | running
  | exited
  | panicked
  deriving DecidableEq, Repr

/-- A run of the loop: the events of every iteration begun, iteration by
iteration, and the status reached. -/
structure ActivatorRun where
  ticks : List (List Event)
  status : LoopStatus
  deriving DecidableEq, Repr

/-- One iteration of the loop of lines 109-124 on tick `tick`, after `calls`
calls of `initDiskDecommController`: the body (lines 110-123) and, unless the
loop is left, the post statement `<-diskDecommEnablementTicker.C`.  Returned
are the events, the status afterwards and the number of calls made so far.
The disabled branch falls through to the post statement and `continue` jumps
to it; `break` leaves the loop without it.  A nil interface panics at the
method call of line 114. -/
def activatorIteration (env : ActivatorEnv) (migrationController : Ptr) (tick calls : Nat) :
    List Event × LoopStatus × Nat :=
  match env.GetContainerOrchestratorInterface tick with
  | none => ([.GetContainerOrchestratorInterface], .panicked, calls)
  | some _ =>
    if !env.IsFSSEnabled tick then
      ([.GetContainerOrchestratorInterface, .IsFSSEnabled false,
          .log .Infof "VSANDirectDiskDecommission feature is disabled on the cluster",
          .tickerC], .running, calls)
    else
      match env.initDiskDecommController calls with
      | some err =>
        ([.GetContainerOrchestratorInterface, .IsFSSEnabled true,
            .initDiskDecommController migrationController (some err),
            .log .Warnf "Error while initializing disk decommission controller. Error: %+v. Retry will be triggered at %v",
            .tickerC], .running, calls + 1)
      | none =>
        ([.GetContainerOrchestratorInterface, .IsFSSEnabled true,
            .initDiskDecommController migrationController none], .exited, calls + 1)

/-- The loop `for ; true; <-diskDecommEnablementTicker.C` of lines 109-124, run
for at most `fuel` iterations from iteration number `tick`, after `calls`
calls of `initDiskDecommController`. -/
def activatorLoop (env : ActivatorEnv) (migrationController : Ptr) :
    Nat → Nat → Nat → ActivatorRun
  | 0, _, _ => ⟨[], .running⟩
  | fuel + 1, tick, calls =>
    match activatorIteration env migrationController tick calls with
    | (evs, .running, calls1) =>
      let rest := activatorLoop env migrationController fuel (tick + 1) calls1
      ⟨evs :: rest.ticks, rest.status⟩
    | (evs, status, _) => ⟨[evs], status⟩

/-- The goroutine of lines 105-125 run for at most `fuel` iterations: the
ticker is created, the loop runs, and the deferred `Stop` runs once the
function body is left. -/
def activator (env : ActivatorEnv) (migrationController : Ptr) (fuel : Nat) : List Event :=
  let r := activatorLoop env migrationController fuel 0 0
  [Event.NewTicker] ++ r.ticks.flatten ++
    (match r.status with
     | .running => []
     | _ => [Event.tickerStop])

/-- A query of the feature gate. -/
def Event.isPoll : Event → Bool
  | .IsFSSEnabled _ => true
  | _ => false

/-- A call of `initDiskDecommController`. -/
def Event.isAttempt : Event → Bool
  | .initDiskDecommController _ _ => true
  | _ => false

/-- A receive on the ticker channel. -/
def Event.isWait : Event → Bool
  | .tickerC => true
  | _ => false

/-- Number of feature-gate queries in a run. -/
def ActivatorRun.polls (r : ActivatorRun) : Nat :=
  r.ticks.flatten.countP Event.isPoll

/-- Number of calls of `initDiskDecommController` in a run. -/
def ActivatorRun.attempts (r : ActivatorRun) : Nat :=
  r.ticks.flatten.countP Event.isAttempt

/-- Number of receives on the ticker channel in a run. -/
def ActivatorRun.waits (r : ActivatorRun) : Nat :=
  r.ticks.flatten.countP Event.isWait

/-- The events that come before the first query of the feature gate. -/
def eventsBeforeFirstPoll (evs : List Event) : List Event :=
  evs.takeWhile fun e => !e.isPoll

/-- Number of ticks before `t` on which the gate answers enabled: the number
of calls of `initDiskDecommController` made before tick `t` by a loop that
has not been left. -/
def ActivatorEnv.enabledBefore (env : ActivatorEnv) : Nat → Nat
  | 0 => 0
  | t + 1 => env.enabledBefore t + (if env.IsFSSEnabled t then 1 else 0)

/-- On tick `t` the gate answers enabled and the call of
`initDiskDecommController` made then returns no error. -/
def ActivatorEnv.succeedsAt (env : ActivatorEnv) (t : Nat) : Prop :=
  env.IsFSSEnabled t = true ∧ env.initDiskDecommController (env.enabledBefore t) = none

instance (env : ActivatorEnv) (t : Nat) : Decidable (env.succeedsAt t) := by
  unfold ActivatorEnv.succeedsAt; infer_instance

/-- Tick `n` is the first on which the gate is enabled and activation
succeeds. -/
def ActivatorEnv.firstSuccess (env : ActivatorEnv) (n : Nat) : Prop :=
  env.succeedsAt n ∧ ∀ m, m < n → ¬ env.succeedsAt m

/-! ## `ResetVC` next to a concurrent reader

The critical section of `ResetVC` (lines 170-175) statement by statement, run
against a second goroutine that gets the registry from
`GetStoragePoolService` and loads `vc` fields.  Every step is one statement of
one goroutine; a schedule picks the goroutine that moves. -/

/-- The two goroutines. -/
inductive Thread where
  | resetter
  | reader
  deriving DecidableEq, Repr

/-- The controller whose `vc` field a load reads. -/
inductive Field where
  | sp
  | sc
  | mig
  deriving DecidableEq, Repr

/-- Where the goroutine running `ResetVC` stands, once `ConnectPbm` has
succeeded: before `Lock` (line 170), before one of the three stores (lines
173-175), before the deferred `Unlock`, or returned. -/
inductive ResetPc where
  | atLock
  | atStoreSp
  | atStoreSc
  | atStoreMig
  | atUnlock
  | done
  deriving DecidableEq, Repr

/-- Where the reader stands: before taking the lock (a reader that takes it),
in the middle of its loads with those in `todo` still to make, before
releasing the lock, or finished. -/
inductive ReaderPc where
  | atLock (todo : List Field)
  | reading (todo : List Field)
  | atUnlock
  | done
  deriving DecidableEq, Repr

/-- The shared state and both goroutines: `mutex` is the holder of
`defaultStoragePoolServiceLock`, `obs` the values the reader has loaded. -/
structure Sys where
  st : State
  mutex : Option Thread
  resetPc : ResetPc
  readerPc : ReaderPc
  obs : List (Option Ptr)

/-- A load of one controller's `vc` field through the registry returned by
`GetStoragePoolService`; `none` when the controller reference is nil. -/
def readField (st : State) : Field → Option Ptr
  | .sp => (GetStoragePoolService st).GetSPController.map st.heap.spControllerVc
  | .sc => (GetStoragePoolService st).GetScWatch.map st.heap.storageClassWatchVc
  | .mig => (GetStoragePoolService st).migrationCntlr.map st.heap.migrationControllerVc

/-- The store at `pc` (lines 173-175) with handle `v`: the field is written and
control moves to the next statement; on a nil reference the panic leaves for
the deferred `Unlock`.  Other positions make no store. -/
def resetLocal (v : Nat) (pc : ResetPc) (st : State) : ResetPc × State :=
  match pc with
  | .atStoreSp =>
    match st.service.spController with
    | none => (.atUnlock, st)
    | some sp =>
      (.atStoreSc, { st with heap := { st.heap with
          spControllerVc := store st.heap.spControllerVc sp (some v) } })
  | .atStoreSc =>
    match st.service.scWatchCntlr with
    | none => (.atUnlock, st)
    | some sc =>
      (.atStoreMig, { st with heap := { st.heap with
          storageClassWatchVc := store st.heap.storageClassWatchVc sc (some v) } })
  | .atStoreMig =>
    match st.service.migrationCntlr with
    | none => (.atUnlock, st)
    | some mc =>
      (.atUnlock, { st with heap := { st.heap with
          migrationControllerVc := store st.heap.migrationControllerVc mc (some v) } })
  | pc => (pc, st)

/-- One step of the goroutine running `ResetVC` with handle `v`.  `Lock` waits
while the mutex is held. -/
def stepResetter (v : Nat) (s : Sys) : Sys :=
  match s.resetPc with
  | .atLock =>
    match s.mutex with
    | none => { s with mutex := some .resetter, resetPc := .atStoreSp }
    | some _ => s
  | .atUnlock => { s with mutex := none, resetPc := .done }
  | .done => s
  | pc => { s with st := (resetLocal v pc s.st).2, resetPc := (resetLocal v pc s.st).1 }

/-- One step of the reader.  With `locking` it brackets its loads by `Lock`
and `Unlock` of `defaultStoragePoolServiceLock`; without, it loads as the
accessors of lines 142-154 do, taking no lock. -/
def stepReader (locking : Bool) (s : Sys) : Sys :=
  match s.readerPc with
  | .atLock todo =>
    match s.mutex with
    | none => { s with mutex := some .reader, readerPc := .reading todo }
    | some _ => s
  | .reading [] => { s with readerPc := if locking then .atUnlock else .done }
  | .reading (f :: todo) =>
    { s with obs := s.obs ++ [readField s.st f], readerPc := .reading todo }
  | .atUnlock => { s with mutex := none, readerPc := .done }
  | .done => s

/-- One step of the chosen goroutine. -/
def step (v : Nat) (locking : Bool) (t : Thread) (s : Sys) : Sys :=
  match t with
  | .resetter => stepResetter v s
  | .reader => stepReader locking s

/-- The state reached along a schedule. -/
def run (v : Nat) (locking : Bool) (sched : List Thread) (s : Sys) : Sys :=
  sched.foldl (fun s t => step v locking t s) s

/-- Both goroutines at their start, the mutex free. -/
def Sys.init (locking : Bool) (prog : List Field) (st : State) : Sys :=
  { st := st, mutex := none, resetPc := .atLock,
    readerPc := if locking then .atLock prog else .reading prog, obs := [] }

/-- The state in which the stores still to be made from `pc` on have been
made. -/
def finishFrom (v : Nat) (pc : ResetPc) (st : State) : State :=
  let a := resetLocal v pc st
  let b := resetLocal v a.1 a.2
  (resetLocal v b.1 b.2).2

/-- What holds of every state a locking reader and `ResetVC` can reach from
`Sys.init true prog st0`. -/
def Inv (v : Nat) (prog : List Field) (st0 : State) (s : Sys) : Prop :=
  (match s.resetPc with
   | .atLock => s.st = st0 ∧ s.mutex ≠ some .resetter
   | .done => s.st = (ResetVC (fun _ => none) (some v) st0).state ∧ s.mutex ≠ some .resetter
   | pc => s.mutex = some .resetter ∧
      finishFrom v pc s.st = (ResetVC (fun _ => none) (some v) st0).state) ∧
  (match s.readerPc with
   | .atLock todo => todo = prog ∧ s.obs = [] ∧ s.mutex ≠ some .reader
   | .reading todo => s.mutex = some .reader ∧
      ∃ made, prog = made ++ todo ∧ s.obs = made.map (readField s.st)
   | .atUnlock => s.mutex = some .reader ∧ s.obs = prog.map (readField s.st)
   | .done => s.mutex ≠ some .reader ∧
      (s.obs = prog.map (readField st0) ∨
        s.obs = prog.map (readField (ResetVC (fun _ => none) (some v) st0).state)))

/-! ## Concrete inputs -/

/-- A populated registry whose controllers hold three different handles. -/
def populatedState : State :=
  { service := { spController := some 1, scWatchCntlr := some 2, migrationCntlr := some 3,
                 clusterID := "cluster-a" },
    heap := { spControllerVc := fun _ => some 7,
              storageClassWatchVc := fun _ => some 8,
              migrationControllerVc := fun _ => none } }

/-- A populated registry whose controllers all hold the handle at address 7. -/
def sharedState : State :=
  { service := { spController := some 1, scWatchCntlr := some 2, migrationCntlr := some 3,
                 clusterID := "cluster-a" },
    heap := { spControllerVc := fun _ => some 7,
              storageClassWatchVc := fun _ => some 7,
              migrationControllerVc := fun _ => some 7 } }

/-- The registry before initialization, with an arbitrary heap. -/
def zeroState : State :=
  { service := Service.zero,
    heap := { spControllerVc := fun _ => none,
              storageClassWatchVc := fun _ => none,
              migrationControllerVc := fun _ => none } }

/-- `ConnectPbm` succeeds on every handle. -/
def pbmOk : Ptr → Option Error := fun _ => none

/-- `ConnectPbm` fails on every handle. -/
def pbmFail : Ptr → Option Error := fun _ => some ⟨1⟩

/-- An environment in which every call of `InitStoragePoolService` succeeds. -/
def envOk : InitEnv :=
  { GetConfig := (some 10, none)
    NewForConfig := fun _ => (some 11, none)
    createCustomResourceDefinition := fun _ _ _ => none
    GetVirtualCenterInstance := fun _ => (some 7, none)
    ConnectPbm := fun _ => none
    newSPController := fun _ _ => (some 1, none)
    startStorageClassWatch := fun _ _ => (some 2, none)
    initMigrationController := fun _ _ => some 3 }

/-- As `envOk`, but registering the StoragePool CRD fails. -/
def envCrdFails : InitEnv :=
  { envOk with createCustomResourceDefinition := fun _ _ _ => some ⟨42⟩ }

/-- A configuration with cluster id `cluster-a`. -/
def configA : ConfigInfo :=
  { Cfg := { Global := { ClusterID := "cluster-a" }, FeatureStatesConfig := 0 } }

instance (env : ActivatorEnv) (n : Nat) : Decidable (env.firstSuccess n) := by
  unfold ActivatorEnv.firstSuccess; infer_instance

/-- The interface is obtained on every tick; the gate is disabled on ticks 0
and 1 and enabled from tick 2 on; `initDiskDecommController` fails on its
first call and succeeds afterwards. -/
def envTwoDisabled : ActivatorEnv :=
  { GetContainerOrchestratorInterface := fun _ => some 20
    IsFSSEnabled := fun t => decide (2 ≤ t)
    initDiskDecommController := fun n => if n = 0 then some ⟨5⟩ else none }

/-- The interface is obtained on every tick and the gate is never enabled. -/
def envNeverEnabled : ActivatorEnv :=
  { GetContainerOrchestratorInterface := fun _ => some 20
    IsFSSEnabled := fun _ => false
    initDiskDecommController := fun _ => none }

/-! ## Theorems: `ResetVC` -/

theorem store_same (h : Nat → Ptr) (a : Nat) (v : Ptr) : store h a v a = v := by
  simp [store]

/-- On a populated registry a valid handle makes `ResetVC` return with the
registry untouched and the three `vc` fields set to the handle. -/
theorem ResetVC_valid (ConnectPbm : Ptr → Option Error) (v : Nat) (st : State)
    (hp : st.service.populated) (hc : ConnectPbm (some v) = none) :
    (ResetVC ConnectPbm (some v) st).outcome = .returned ∧
      (ResetVC ConnectPbm (some v) st).state.service = st.service ∧
      (ResetVC ConnectPbm (some v) st).state.holdsAll (some v) := by
  obtain ⟨svc, heap⟩ := st
  obtain ⟨sp, sc, mc, cid⟩ := svc
  obtain ⟨h1, h2, h3⟩ := hp
  cases sp with
  | none => exact absurd rfl h1
  | some sp =>
    cases sc with
    | none => exact absurd rfl h2
    | some sc =>
      cases mc with
      | none => exact absurd rfl h3
      | some mc =>
        simp [ResetVC, hc, State.holdsAll, State.spVc, State.scVc, State.migVc, store]

/-- A nil handle, or a handle whose `ConnectPbm` fails, makes `ResetVC` return
with the state as it was. -/
theorem ResetVC_invalid (ConnectPbm : Ptr → Option Error) (vc : Ptr) (st : State)
    (h : vc = none ∨ ∃ e, ConnectPbm vc = some e) :
    (ResetVC ConnectPbm vc st).outcome = .returned ∧
      (ResetVC ConnectPbm vc st).state = st := by
  cases vc with
  | none => simp [ResetVC]
  | some v =>
    rcases h with h | ⟨e, he⟩
    · cases h
    · simp [ResetVC, he]

/-- Every call falls under `ResetVC_valid` or `ResetVC_invalid`. -/
theorem ResetVC_cases (ConnectPbm : Ptr → Option Error) (vc : Ptr) :
    (vc = none ∨ ∃ e, ConnectPbm vc = some e) ∨ ∃ v, vc = some v ∧ ConnectPbm (some v) = none := by
  cases vc with
  | none => exact Or.inl (Or.inl rfl)
  | some v =>
    cases hc : ConnectPbm (some v) with
    | none => exact Or.inr ⟨v, rfl, hc⟩
    | some e => exact Or.inl (Or.inr ⟨e, rfl⟩)

/-- Populatedness and agreement of the three handles are kept by every call of
a sequence, and every call returns. -/
theorem ResetVCs_invariant (calls : List ResetCall) (st : State) (h : Ptr)
    (hp : st.service.populated) (hh : st.holdsAll h) :
    (ResetVCs calls st).length = calls.length ∧
      ∀ r ∈ ResetVCs calls st, r.outcome = .returned ∧ r.state.service = st.service ∧
        ∃ g, r.state.spVc = some g ∧ r.state.scVc = some g ∧ r.state.migVc = some g := by
  induction calls generalizing st h with
  | nil => simp [ResetVCs]
  | cons c cs ih =>
    have key : (ResetVC c.ConnectPbm c.vc st).outcome = .returned ∧
        (ResetVC c.ConnectPbm c.vc st).state.service = st.service ∧
        ∃ g, (ResetVC c.ConnectPbm c.vc st).state.holdsAll g := by
      rcases ResetVC_cases c.ConnectPbm c.vc with hi | ⟨v, hv, hc⟩
      · obtain ⟨h1, h2⟩ := ResetVC_invalid c.ConnectPbm c.vc st hi
        exact ⟨h1, by rw [h2], h, by rw [h2]; exact hh⟩
      · rw [hv]
        obtain ⟨h1, h2, h3⟩ := ResetVC_valid c.ConnectPbm v st hp hc
        exact ⟨h1, h2, some v, h3⟩
    obtain ⟨k1, k2, g, k3⟩ := key
    have hp2 : (ResetVC c.ConnectPbm c.vc st).state.service.populated := by rw [k2]; exact hp
    obtain ⟨i1, i2⟩ := ih (ResetVC c.ConnectPbm c.vc st).state g hp2 k3
    simp only [ResetVCs, k1, List.length_cons, i1, List.mem_cons, true_and]
    intro r hr
    rcases hr with hr | hr
    · subst hr
      exact ⟨k1, k2, g, k3⟩
    · obtain ⟨j1, j2, j3⟩ := i2 r hr
      exact ⟨j1, by rw [j2, k2], j3⟩

/-! ## Theorems: `InitStoragePoolService` -/

/-- Unless `InitStoragePoolService` returns nil, it leaves the registry as it
was and never takes the lock. -/
theorem Init_unwritten (env : InitEnv) (configInfo : Option ConfigInfo) (svc : Service)
    (h : (InitStoragePoolService env configInfo svc).outcome ≠ .returned none) :
    (InitStoragePoolService env configInfo svc).service = svc ∧
      Event.Lock ∉ (InitStoragePoolService env configInfo svc).events := by
  revert h
  unfold InitStoragePoolService
  rcases h1 : env.GetConfig with ⟨cfg, _ | e1⟩ <;> simp only []
  swap; · simp
  rcases h2 : env.NewForConfig cfg with ⟨cs, _ | e2⟩ <;> simp only []
  swap; · simp
  rcases h3 : env.createCustomResourceDefinition cs "storagepools" "StoragePool" with _ | e3
    <;> simp only []
  swap; · simp
  rcases h4 : env.GetVirtualCenterInstance configInfo with ⟨vc, _ | e4⟩ <;> simp only []
  swap; · simp
  rcases h5 : env.ConnectPbm vc with _ | e5 <;> simp only []
  swap; · simp
  cases configInfo with
  | none => simp
  | some ci =>
    simp only []
    rcases h6 : env.newSPController vc ci.Cfg.Global.ClusterID with ⟨sp, _ | e6⟩ <;> simp only []
    swap; · simp
    rcases h7 : env.startStorageClassWatch sp cfg with ⟨sc, _ | e7⟩ <;> simp only []
    swap; · simp
    simp

/-- When `InitStoragePoolService` returns nil, every fallible call succeeded
and the registry holds the values made in this call. -/
theorem Init_published (env : InitEnv) (configInfo : Option ConfigInfo) (svc : Service)
    (h : (InitStoragePoolService env configInfo svc).outcome = .returned none) :
    ∃ ci cfg cs vc sp sc,
      configInfo = some ci ∧ env.GetConfig = (cfg, none) ∧ env.NewForConfig cfg = (cs, none) ∧
      env.createCustomResourceDefinition cs "storagepools" "StoragePool" = none ∧
      env.GetVirtualCenterInstance configInfo = (vc, none) ∧ env.ConnectPbm vc = none ∧
      env.newSPController vc ci.Cfg.Global.ClusterID = (sp, none) ∧
      env.startStorageClassWatch sp cfg = (sc, none) ∧
      (InitStoragePoolService env configInfo svc).service =
        { spController := sp, scWatchCntlr := sc,
          migrationCntlr := env.initMigrationController vc ci.Cfg.Global.ClusterID,
          clusterID := ci.Cfg.Global.ClusterID } := by
  revert h
  unfold InitStoragePoolService
  rcases h1 : env.GetConfig with ⟨cfg, _ | e1⟩ <;> simp only []
  swap; · simp
  rcases h2 : env.NewForConfig cfg with ⟨cs, _ | e2⟩ <;> simp only []
  swap; · simp
  rcases h3 : env.createCustomResourceDefinition cs "storagepools" "StoragePool" with _ | e3
    <;> simp only []
  swap; · simp
  rcases h4 : env.GetVirtualCenterInstance configInfo with ⟨vc, _ | e4⟩ <;> simp only []
  swap; · simp
  rcases h5 : env.ConnectPbm vc with _ | e5 <;> simp only []
  swap; · simp
  cases configInfo with
  | none => simp
  | some ci =>
    simp only []
    rcases h6 : env.newSPController vc ci.Cfg.Global.ClusterID with ⟨sp, _ | e6⟩ <;> simp only []
    swap; · simp
    rcases h7 : env.startStorageClassWatch sp cfg with ⟨sc, _ | e7⟩ <;> simp only []
    swap; · simp
    intro _
    refine ⟨ci, cfg, cs, vc, sp, sc, ?_, ?_, ?_, ?_, ?_, ?_, ?_, ?_, ?_⟩ <;>
      first | rfl | assumption

/-! ## Theorems: the claims about `ResetVC` and `InitStoragePoolService` -/

/-- C1. From a populated registry whose three controllers hold one handle,
every call of a finite sequence of `ResetVC` calls returns (nil handle, failing
`ConnectPbm` or succeeding `ConnectPbm` alike), and after each call the three
`vc` fields are equal to one another. -/
theorem ResetVCs_consistent (calls : List ResetCall) (st : State) (h : Ptr)
    (hp : st.service.populated) (hh : st.holdsAll h) :
    (ResetVCs calls st).length = calls.length ∧
      ∀ r ∈ ResetVCs calls st, r.outcome = .returned ∧
        ∃ g, r.state.spVc = some g ∧ r.state.scVc = some g ∧ r.state.migVc = some g := by
  obtain ⟨h1, h2⟩ := ResetVCs_invariant calls st h hp hh
  exact ⟨h1, fun r hr => ⟨(h2 r hr).1, (h2 r hr).2.2⟩⟩

theorem ResetVCs_consistent_witness :
    (sharedState.service.populated ∧ sharedState.holdsAll (some 7)) ∧
    ((ResetVCs [⟨pbmOk, none⟩, ⟨pbmFail, some 9⟩, ⟨pbmOk, some 9⟩, ⟨pbmOk, none⟩]
        sharedState).length = 4 ∧
      ∀ r ∈ ResetVCs [⟨pbmOk, none⟩, ⟨pbmFail, some 9⟩, ⟨pbmOk, some 9⟩, ⟨pbmOk, none⟩]
          sharedState,
        r.outcome = .returned ∧
          ∃ g, r.state.spVc = some g ∧ r.state.scVc = some g ∧ r.state.migVc = some g) :=
  ⟨⟨by decide, by decide⟩,
    ResetVCs_consistent _ sharedState (some 7) (by decide) (by decide)⟩

/-- C2. On a populated registry, `ResetVC` with a non-nil handle whose
`ConnectPbm` succeeds returns, and then the `vc` field of the capacity
controller, of the storage-class watcher and of the migration controller each
equal the new handle, whatever they held before; the registry's references and
cluster id are as before. -/
theorem ResetVC_overwrites_all (ConnectPbm : Ptr → Option Error) (v : Nat) (st : State)
    (hp : st.service.populated) (hc : ConnectPbm (some v) = none) :
    (ResetVC ConnectPbm (some v) st).outcome = .returned ∧
      (ResetVC ConnectPbm (some v) st).state.spVc = some (some v) ∧
      (ResetVC ConnectPbm (some v) st).state.scVc = some (some v) ∧
      (ResetVC ConnectPbm (some v) st).state.migVc = some (some v) ∧
      (ResetVC ConnectPbm (some v) st).state.service = st.service := by
  obtain ⟨h1, h2, h3, h4, h5⟩ := ResetVC_valid ConnectPbm v st hp hc
  exact ⟨h1, h3, h4, h5, h2⟩

theorem ResetVC_overwrites_all_witness :
    (populatedState.service.populated ∧ pbmOk (some 9) = none) ∧
    (populatedState.spVc = some (some 7) ∧ populatedState.scVc = some (some 8) ∧
      populatedState.migVc = some none) ∧
    ((ResetVC pbmOk (some 9) populatedState).outcome = .returned ∧
      (ResetVC pbmOk (some 9) populatedState).state.spVc = some (some 9) ∧
      (ResetVC pbmOk (some 9) populatedState).state.scVc = some (some 9) ∧
      (ResetVC pbmOk (some 9) populatedState).state.migVc = some (some 9) ∧
      (ResetVC pbmOk (some 9) populatedState).state.service = populatedState.service) :=
  ⟨⟨by decide, rfl⟩, by decide,
    ResetVC_overwrites_all pbmOk 9 populatedState (by decide) rfl⟩

/-- C3. In every registry state, populated or zero, `ResetVC` with a nil handle
returns normally, never calls `ConnectPbm`, never takes the lock, and leaves
the whole state (the three references, every controller's `vc` field and the
cluster id) as it was. -/
theorem ResetVC_nil_unchanged (ConnectPbm : Ptr → Option Error) (st : State) :
    (ResetVC ConnectPbm none st).outcome = .returned ∧
      (ResetVC ConnectPbm none st).state = st ∧
      (∀ p, Event.ConnectPbm p ∉ (ResetVC ConnectPbm none st).events) ∧
      Event.Lock ∉ (ResetVC ConnectPbm none st).events := by
  simp [ResetVC]

/-- C4. In every registry state, `ResetVC` with a non-nil handle whose
`ConnectPbm` returns an error returns without taking the lock and without any
store: the state is as before, each controller holds the handle it held, and if
all three held `h` they still hold `h`. -/
theorem ResetVC_pbm_failure_unchanged (ConnectPbm : Ptr → Option Error) (v : Nat) (e : Error)
    (st : State) (hc : ConnectPbm (some v) = some e) :
    (ResetVC ConnectPbm (some v) st).outcome = .returned ∧
      (ResetVC ConnectPbm (some v) st).state = st ∧
      (ResetVC ConnectPbm (some v) st).state.spVc = st.spVc ∧
      (ResetVC ConnectPbm (some v) st).state.scVc = st.scVc ∧
      (ResetVC ConnectPbm (some v) st).state.migVc = st.migVc ∧
      (∀ h, st.holdsAll h → (ResetVC ConnectPbm (some v) st).state.holdsAll h) ∧
      Event.Lock ∉ (ResetVC ConnectPbm (some v) st).events := by
  obtain ⟨h1, h2⟩ := ResetVC_invalid ConnectPbm (some v) st (Or.inr ⟨e, hc⟩)
  refine ⟨h1, h2, by rw [h2], by rw [h2], by rw [h2], fun h hh => by rw [h2]; exact hh, ?_⟩
  simp [ResetVC, hc]

theorem ResetVC_pbm_failure_unchanged_witness :
    pbmFail (some 9) = some ⟨1⟩ ∧
    ((ResetVC pbmFail (some 9) sharedState).outcome = .returned ∧
      (ResetVC pbmFail (some 9) sharedState).state = sharedState ∧
      (ResetVC pbmFail (some 9) sharedState).state.spVc = sharedState.spVc ∧
      (ResetVC pbmFail (some 9) sharedState).state.scVc = sharedState.scVc ∧
      (ResetVC pbmFail (some 9) sharedState).state.migVc = sharedState.migVc ∧
      (∀ h, sharedState.holdsAll h → (ResetVC pbmFail (some 9) sharedState).state.holdsAll h) ∧
      Event.Lock ∉ (ResetVC pbmFail (some 9) sharedState).events) :=
  ⟨rfl, ResetVC_pbm_failure_unchanged pbmFail 9 ⟨1⟩ sharedState rfl⟩

/-- C5. Whenever `InitStoragePoolService` returns a non-nil error, whichever
call failed, none of the four registry fields has been written and the lock was
never taken: the registry is as before, so a zero registry is still zero.  A
failing CRD registration in particular makes the call return an error. -/
theorem Init_error_leaves_registry (env : InitEnv) (configInfo : Option ConfigInfo)
    (svc : Service) :
    (∀ e, (InitStoragePoolService env configInfo svc).outcome = .returned (some e) →
      (InitStoragePoolService env configInfo svc).service = svc ∧
      Event.Lock ∉ (InitStoragePoolService env configInfo svc).events ∧
      (svc = Service.zero → (InitStoragePoolService env configInfo svc).service = Service.zero)) ∧
    ((∀ cs plural kind, env.createCustomResourceDefinition cs plural kind ≠ none) →
      ∃ e, (InitStoragePoolService env configInfo svc).outcome = .returned (some e)) := by
  constructor
  · intro e he
    have hne : (InitStoragePoolService env configInfo svc).outcome ≠ .returned none := by
      rw [he]; simp
    obtain ⟨h1, h2⟩ := Init_unwritten env configInfo svc hne
    exact ⟨h1, h2, fun hz => by rw [h1, hz]⟩
  · intro hcrd
    unfold InitStoragePoolService
    rcases h1 : env.GetConfig with ⟨cfg, _ | e1⟩ <;> simp only []
    swap; · exact ⟨e1, rfl⟩
    rcases h2 : env.NewForConfig cfg with ⟨cs, _ | e2⟩ <;> simp only []
    swap; · exact ⟨e2, rfl⟩
    rcases h3 : env.createCustomResourceDefinition cs "storagepools" "StoragePool" with _ | e3
      <;> simp only []
    · exact absurd h3 (hcrd _ _ _)
    · exact ⟨e3, rfl⟩

theorem Init_error_leaves_registry_witness :
    (InitStoragePoolService envCrdFails (some configA) Service.zero).outcome
        = .returned (some ⟨42⟩) ∧
      (InitStoragePoolService envCrdFails (some configA) Service.zero).service = Service.zero :=
  ⟨rfl, ((Init_error_leaves_registry envCrdFails (some configA) Service.zero).1 ⟨42⟩ rfl).1⟩

/-- C7. When `InitStoragePoolService` returns nil, the registry holds the values
made in this call: `spController` is what `newSPController` returned,
`scWatchCntlr` what `startStorageClassWatch` returned, `migrationCntlr` what
`initMigrationController` returned and `clusterID` is
`configInfo.Cfg.Global.ClusterID`; so the three references are non-nil whenever
the constructors returned non-nil values. -/
theorem Init_success_publishes (env : InitEnv) (configInfo : Option ConfigInfo) (svc : Service)
    (h : (InitStoragePoolService env configInfo svc).outcome = .returned none) :
    ∃ ci cfg vc,
      configInfo = some ci ∧ env.GetConfig = (cfg, none) ∧
      env.GetVirtualCenterInstance configInfo = (vc, none) ∧
      (InitStoragePoolService env configInfo svc).service.spController =
        (env.newSPController vc ci.Cfg.Global.ClusterID).1 ∧
      (InitStoragePoolService env configInfo svc).service.scWatchCntlr =
        (env.startStorageClassWatch (env.newSPController vc ci.Cfg.Global.ClusterID).1 cfg).1 ∧
      (InitStoragePoolService env configInfo svc).service.migrationCntlr =
        env.initMigrationController vc ci.Cfg.Global.ClusterID ∧
      (InitStoragePoolService env configInfo svc).service.clusterID = ci.Cfg.Global.ClusterID ∧
      ((env.newSPController vc ci.Cfg.Global.ClusterID).1 ≠ none →
        (env.startStorageClassWatch (env.newSPController vc ci.Cfg.Global.ClusterID).1 cfg).1
          ≠ none →
        env.initMigrationController vc ci.Cfg.Global.ClusterID ≠ none →
        (InitStoragePoolService env configInfo svc).service.populated) := by
  obtain ⟨ci, cfg, cs, vc, sp, sc, h0, h1, h2, h3, h4, h5, h6, h7, h8⟩ :=
    Init_published env configInfo svc h
  refine ⟨ci, cfg, vc, h0, h1, h4, ?_, ?_, ?_, ?_, ?_⟩
  · rw [h8, h6]
  · rw [h8, h6, h7]
  · rw [h8]
  · rw [h8]
  · rw [h8, h6, h7]
    intro a b c
    exact ⟨a, b, c⟩

theorem Init_success_publishes_witness :
    (InitStoragePoolService envOk (some configA) Service.zero).outcome = .returned none ∧
    (InitStoragePoolService envOk (some configA) Service.zero).service =
      { spController := some 1, scWatchCntlr := some 2, migrationCntlr := some 3,
        clusterID := "cluster-a" } ∧
    ∃ ci cfg vc,
      some configA = some ci ∧ envOk.GetConfig = (cfg, none) ∧
      envOk.GetVirtualCenterInstance (some configA) = (vc, none) ∧
      (InitStoragePoolService envOk (some configA) Service.zero).service.spController =
        (envOk.newSPController vc ci.Cfg.Global.ClusterID).1 ∧
      (InitStoragePoolService envOk (some configA) Service.zero).service.scWatchCntlr =
        (envOk.startStorageClassWatch (envOk.newSPController vc ci.Cfg.Global.ClusterID).1 cfg).1 ∧
      (InitStoragePoolService envOk (some configA) Service.zero).service.migrationCntlr =
        envOk.initMigrationController vc ci.Cfg.Global.ClusterID ∧
      (InitStoragePoolService envOk (some configA) Service.zero).service.clusterID =
        ci.Cfg.Global.ClusterID ∧
      ((envOk.newSPController vc ci.Cfg.Global.ClusterID).1 ≠ none →
        (envOk.startStorageClassWatch (envOk.newSPController vc ci.Cfg.Global.ClusterID).1 cfg).1
          ≠ none →
        envOk.initMigrationController vc ci.Cfg.Global.ClusterID ≠ none →
        (InitStoragePoolService envOk (some configA) Service.zero).service.populated) :=
  ⟨rfl, rfl, Init_success_publishes envOk (some configA) Service.zero rfl⟩

/-- C10. `ResetVC` panics on a nil controller reference exactly when the handle
is non-nil, `ConnectPbm` on it succeeds and one of `spController`,
`scWatchCntlr`, `migrationCntlr` is nil, and otherwise returns.  So it returns
on every populated registry, hence on every registry published by an
`InitStoragePoolService` that returned nil with constructors that returned
non-nil controllers, and it panics on the zero registry when given a valid
handle. -/
theorem ResetVC_panics_iff (ConnectPbm : Ptr → Option Error) (vc : Ptr) (st : State) :
    ((ResetVC ConnectPbm vc st).outcome = .panicked ↔
      (∃ v, vc = some v ∧ ConnectPbm (some v) = none) ∧
        (st.service.spController = none ∨ st.service.scWatchCntlr = none ∨
          st.service.migrationCntlr = none)) ∧
    ((ResetVC ConnectPbm vc st).outcome ≠ .panicked →
      (ResetVC ConnectPbm vc st).outcome = .returned) ∧
    (st.service.populated → (ResetVC ConnectPbm vc st).outcome = .returned) ∧
    (∀ (env : InitEnv) (configInfo : Option ConfigInfo) (svc : Service),
      (InitStoragePoolService env configInfo svc).outcome = .returned none →
      (∀ a b, (env.newSPController a b).2 = none → (env.newSPController a b).1 ≠ none) →
      (∀ a b, (env.startStorageClassWatch a b).2 = none →
        (env.startStorageClassWatch a b).1 ≠ none) →
      (∀ a b, env.initMigrationController a b ≠ none) →
      (ResetVC ConnectPbm vc
        ⟨(InitStoragePoolService env configInfo svc).service, st.heap⟩).outcome = .returned) ∧
    (∀ v, vc = some v → ConnectPbm (some v) = none →
      (ResetVC ConnectPbm vc ⟨Service.zero, st.heap⟩).outcome = .panicked) := by
  have hiff : ∀ s : State, (ResetVC ConnectPbm vc s).outcome = .panicked ↔
      (∃ v, vc = some v ∧ ConnectPbm (some v) = none) ∧
        (s.service.spController = none ∨ s.service.scWatchCntlr = none ∨
          s.service.migrationCntlr = none) := by
    intro s
    obtain ⟨svc, heap⟩ := s
    obtain ⟨sp, sc, mc, cid⟩ := svc
    cases vc with
    | none => simp [ResetVC]
    | some v =>
      cases hc : ConnectPbm (some v) with
      | some e => simp [ResetVC, hc]
      | none => cases sp <;> cases sc <;> cases mc <;> simp [ResetVC, hc]
  refine ⟨hiff st, ?_, ?_, ?_, ?_⟩
  · intro h
    cases ho : (ResetVC ConnectPbm vc st).outcome with
    | returned => rfl
    | panicked => exact absurd ho h
  · intro hp
    cases ho : (ResetVC ConnectPbm vc st).outcome with
    | returned => rfl
    | panicked =>
      obtain ⟨-, h | h | h⟩ := (hiff st).mp ho
      · exact absurd h hp.1
      · exact absurd h hp.2.1
      · exact absurd h hp.2.2
  · intro env configInfo svc hret hsp hsc hmc
    obtain ⟨ci, cfg, cs, w, sp, sc, h0, h1, h2, h3, h4, h5, h6, h7, h8⟩ :=
      Init_published env configInfo svc hret
    have hnp : (ResetVC ConnectPbm vc
        ⟨(InitStoragePoolService env configInfo svc).service, st.heap⟩).outcome ≠ .panicked := by
      intro hpan
      rw [hiff, h8] at hpan
      rcases hpan with ⟨-, h | h | h⟩
      · exact hsp w ci.Cfg.Global.ClusterID (by rw [h6]) (by rw [h6]; exact h)
      · exact hsc sp cfg (by rw [h7]) (by rw [h7]; exact h)
      · exact hmc _ _ h
    cases ho : (ResetVC ConnectPbm vc
        ⟨(InitStoragePoolService env configInfo svc).service, st.heap⟩).outcome with
    | returned => rfl
    | panicked => exact absurd ho hnp
  · intro v hv hc
    rw [hiff]
    exact ⟨⟨v, hv, hc⟩, Or.inl rfl⟩

theorem ResetVC_panics_iff_witness :
    (ResetVC pbmOk (some 9) zeroState).outcome = .panicked ∧
    (ResetVC pbmOk (some 9)
      ⟨(InitStoragePoolService envOk (some configA) Service.zero).service,
        zeroState.heap⟩).outcome = .returned :=
  ⟨(ResetVC_panics_iff pbmOk (some 9) zeroState).2.2.2.2 9 rfl rfl,
    (ResetVC_panics_iff pbmOk (some 9) zeroState).2.2.2.1 envOk (some configA) Service.zero rfl
      (fun _ _ _ => by simp [envOk]) (fun _ _ _ => by simp [envOk])
      (fun _ _ => by simp [envOk])⟩

/-! ## Theorems: the activator loop -/

/-- An iteration on which activation does not succeed leaves the loop running
and accounts for the call it made. -/
theorem iteration_of_not_succeedsAt (env : ActivatorEnv) (mc : Ptr)
    (hco : ∀ t, env.GetContainerOrchestratorInterface t ≠ none)
    (t : Nat) (h : ¬ env.succeedsAt t) :
    (activatorIteration env mc t (env.enabledBefore t)).2 =
      (.running, env.enabledBefore (t + 1)) := by
  unfold activatorIteration
  cases hc : env.GetContainerOrchestratorInterface t with
  | none => exact absurd hc (hco t)
  | some c =>
    cases hg : env.IsFSSEnabled t with
    | false => simp [ActivatorEnv.enabledBefore, hg]
    | true =>
      cases hd : env.initDiskDecommController (env.enabledBefore t) with
      | none => exact absurd ⟨hg, hd⟩ h
      | some e => simp [ActivatorEnv.enabledBefore, hg]

/-- An iteration on which activation succeeds leaves the loop. -/
theorem iteration_of_succeedsAt (env : ActivatorEnv) (mc : Ptr)
    (hco : ∀ t, env.GetContainerOrchestratorInterface t ≠ none)
    (t : Nat) (h : env.succeedsAt t) :
    (activatorIteration env mc t (env.enabledBefore t)).2.1 = .exited := by
  unfold activatorIteration
  cases hc : env.GetContainerOrchestratorInterface t with
  | none => exact absurd hc (hco t)
  | some c => simp [h.1, h.2]

/-- The events of an iteration: the interface is fetched and the gate queried
first; the gate is queried once; `initDiskDecommController` is called once if
the answer was enabled and not at all otherwise; the ticker is received from
once, as the last event, if the loop goes on and not at all otherwise. -/
theorem iteration_events (env : ActivatorEnv) (mc : Ptr)
    (hco : ∀ t, env.GetContainerOrchestratorInterface t ≠ none)
    (t c : Nat) :
    (activatorIteration env mc t c).1.take 2 =
        [.GetContainerOrchestratorInterface, .IsFSSEnabled (env.IsFSSEnabled t)] ∧
      (activatorIteration env mc t c).1.countP Event.isPoll = 1 ∧
      (activatorIteration env mc t c).1.countP Event.isAttempt =
        (if env.IsFSSEnabled t then 1 else 0) ∧
      (activatorIteration env mc t c).1.countP Event.isWait =
        (if (activatorIteration env mc t c).2.1 = .running then 1 else 0) ∧
      ((activatorIteration env mc t c).2.1 = .running →
        (activatorIteration env mc t c).1.getLast? = some .tickerC) ∧
      (∀ p err, Event.initDiskDecommController p err ∈ (activatorIteration env mc t c).1 →
        env.IsFSSEnabled t = true ∧ Event.IsFSSEnabled true ∈ (activatorIteration env mc t c).1) := by
  unfold activatorIteration
  cases hc : env.GetContainerOrchestratorInterface t with
  | none => exact absurd hc (hco t)
  | some i =>
    cases hg : env.IsFSSEnabled t with
    | false => simp [List.countP_cons, Event.isPoll, Event.isAttempt, Event.isWait]
    | true =>
      cases hd : env.initDiskDecommController c with
      | none => simp [List.countP_cons, Event.isPoll, Event.isAttempt, Event.isWait]
      | some e => simp [List.countP_cons, Event.isPoll, Event.isAttempt, Event.isWait]

/-- While activation does not succeed the loop goes through its ticks one by
one: `n` such ticks from tick `t` on are `n` iterations, and the loop goes on
from tick `t + n`. -/
theorem activatorLoop_skip (env : ActivatorEnv) (mc : Ptr)
    (hco : ∀ t, env.GetContainerOrchestratorInterface t ≠ none)
    (n fuel t : Nat) (h : ∀ m, t ≤ m → m < t + n → ¬ env.succeedsAt m) :
    activatorLoop env mc (n + fuel) t (env.enabledBefore t) =
      ⟨(List.range' t n).map (fun k => (activatorIteration env mc k (env.enabledBefore k)).1) ++
          (activatorLoop env mc fuel (t + n) (env.enabledBefore (t + n))).ticks,
        (activatorLoop env mc fuel (t + n) (env.enabledBefore (t + n))).status⟩ := by
  induction n generalizing t with
  | zero => simp
  | succ n ih =>
    have hns : ¬ env.succeedsAt t := h t (le_refl t) (by omega)
    have hit := iteration_of_not_succeedsAt env mc hco t hns
    have ih1 := ih (t + 1) (fun m h1 h2 => h m (by omega) (by omega))
    rw [show n + 1 + fuel = (n + fuel) + 1 by omega]
    rcases hi : activatorIteration env mc t (env.enabledBefore t) with ⟨evs, status, calls1⟩
    rw [hi] at hit
    simp only [Prod.mk.injEq] at hit
    obtain ⟨hs, hcalls⟩ := hit
    subst hs
    subst hcalls
    simp only [activatorLoop, hi, ih1, List.range'_succ, List.map_cons, List.cons_append]
    rw [show t + 1 + n = t + (n + 1) by omega]

/-- As long as activation has not succeeded the loop is still running, one
iteration per tick. -/
theorem activatorLoop_running (env : ActivatorEnv) (mc : Ptr)
    (hco : ∀ t, env.GetContainerOrchestratorInterface t ≠ none)
    (n : Nat) (h : ∀ m, m < n → ¬ env.succeedsAt m) :
    activatorLoop env mc n 0 0 =
      ⟨(List.range n).map (fun k => (activatorIteration env mc k (env.enabledBefore k)).1),
        .running⟩ := by
  have hs := activatorLoop_skip env mc hco n 0 0 (fun m _ h2 => h m (by omega))
  simp only [Nat.add_zero, Nat.zero_add, activatorLoop, List.append_nil] at hs
  rw [List.range_eq_range']
  exact hs

/-- With fuel for the tick of the first success the loop is left on that
tick, whatever fuel remains. -/
theorem activatorLoop_exits (env : ActivatorEnv) (mc : Ptr)
    (hco : ∀ t, env.GetContainerOrchestratorInterface t ≠ none)
    (n fuel : Nat) (hn : n < fuel) (h : env.firstSuccess n) :
    activatorLoop env mc fuel 0 0 =
      ⟨(List.range (n + 1)).map (fun k => (activatorIteration env mc k (env.enabledBefore k)).1),
        .exited⟩ := by
  obtain ⟨k, rfl⟩ : ∃ k, fuel = n + (k + 1) := ⟨fuel - n - 1, by omega⟩
  have hs := activatorLoop_skip env mc hco n (k + 1) 0 (fun m _ h2 => h.2 m (by omega))
  have hx := iteration_of_succeedsAt env mc hco n h.1
  rcases hi : activatorIteration env mc n (env.enabledBefore n) with ⟨evs, status, calls1⟩
  rw [hi] at hx
  simp only at hx
  subst hx
  have hlast : activatorLoop env mc (k + 1) n (env.enabledBefore n) = ⟨[evs], .exited⟩ := by
    simp [activatorLoop, hi]
  rw [Nat.zero_add, hlast] at hs
  have hs1 : activatorLoop env mc (n + (k + 1)) 0 0 = _ := hs
  rw [hs1, List.range_succ, List.map_append, ← List.range_eq_range']
  simp [hi]

/-- If activation succeeds on some tick up to `n`, there is a first such tick. -/
theorem exists_firstSuccess (env : ActivatorEnv) (n : Nat) (h : ∃ m, m ≤ n ∧ env.succeedsAt m) :
    ∃ m, m ≤ n ∧ env.firstSuccess m := by
  have hex : ∃ m, env.succeedsAt m := ⟨h.choose, h.choose_spec.2⟩
  refine ⟨Nat.find hex, ?_, Nat.find_spec hex, fun m hm => Nat.find_min hex hm⟩
  obtain ⟨m, hm, hs⟩ := h
  exact le_trans (Nat.find_min' hex hs) hm

/-- Counting over the iterations of ticks `0 .. n-1`. -/
theorem countP_ticks (p : Event → Bool) (f : Nat → List Event) (g : Nat → Nat) (n : Nat)
    (h : ∀ k, k < n → (f k).countP p = g k) :
    ((List.range n).map f).flatten.countP p = ((List.range n).map g).sum := by
  induction n with
  | zero => simp
  | succ n ih =>
    rw [List.range_succ, List.map_append, List.flatten_append, List.countP_append,
      ih (fun k hk => h k (by omega)), List.map_append, List.sum_append]
    simp [h n (by omega)]

/-- The calls of `initDiskDecommController` made before tick `n` are the
enabled ticks before `n`. -/
theorem sum_enabled (env : ActivatorEnv) (n : Nat) :
    ((List.range n).map (fun k => if env.IsFSSEnabled k then 1 else 0)).sum =
      env.enabledBefore n := by
  induction n with
  | zero => rfl
  | succ n ih =>
    rw [List.range_succ, List.map_append, List.sum_append, ih]
    simp [ActivatorEnv.enabledBefore]

/-- Counts of a run that is left on tick `n`: `n + 1` gate queries, one
call of `initDiskDecommController` per enabled tick, `n` ticker receives. -/
theorem counts_of_exit (env : ActivatorEnv) (mc : Ptr)
    (hco : ∀ t, env.GetContainerOrchestratorInterface t ≠ none)
    (n fuel : Nat) (hn : n < fuel) (h : env.firstSuccess n) :
    (activatorLoop env mc fuel 0 0).polls = n + 1 ∧
      (activatorLoop env mc fuel 0 0).attempts = env.enabledBefore (n + 1) ∧
      (activatorLoop env mc fuel 0 0).waits = n := by
  rw [activatorLoop_exits env mc hco n fuel hn h]
  refine ⟨?_, ?_, ?_⟩
  · simp only [ActivatorRun.polls]
    rw [countP_ticks _ _ (fun _ => 1) _ (fun k _ => (iteration_events env mc hco k _).2.1)]
    simp
  · simp only [ActivatorRun.attempts]
    rw [countP_ticks _ _ (fun k => if env.IsFSSEnabled k then 1 else 0) _
      (fun k _ => (iteration_events env mc hco k _).2.2.1)]
    exact sum_enabled env (n + 1)
  · simp only [ActivatorRun.waits]
    rw [countP_ticks _ _ (fun k => if k < n then 1 else 0) _ ?_]
    · rw [List.range_succ, List.map_append, List.sum_append]
      have : (List.map (fun k => if k < n then 1 else 0) (List.range n)) =
          List.map (fun _ => 1) (List.range n) := by
        apply List.map_congr_left
        intro k hk
        simp [List.mem_range.mp hk]
      rw [this]
      simp
    · intro k hk
      rw [(iteration_events env mc hco k _).2.2.2.1]
      by_cases hkn : k < n
      · rw [iteration_of_not_succeedsAt env mc hco k (h.2 k hkn)]
        simp [hkn]
      · have : k = n := by omega
        subst this
        rw [iteration_of_succeedsAt env mc hco k h.1]
        simp

/-- The iterations of a run on fuel `fuel` are the iterations of ticks
`0 .. j-1` for some `j ≤ fuel`. -/
theorem activatorLoop_ticks (env : ActivatorEnv) (mc : Ptr)
    (hco : ∀ t, env.GetContainerOrchestratorInterface t ≠ none) (fuel : Nat) :
    ∃ j, j ≤ fuel ∧ (activatorLoop env mc fuel 0 0).ticks =
      (List.range j).map (fun k => (activatorIteration env mc k (env.enabledBefore k)).1) := by
  by_cases h : ∃ m, m < fuel ∧ env.succeedsAt m
  · obtain ⟨m, hm, hs⟩ := h
    obtain ⟨m1, hm1, hf⟩ := exists_firstSuccess env m ⟨m, le_refl m, hs⟩
    exact ⟨m1 + 1, by omega, by rw [activatorLoop_exits env mc hco m1 fuel (by omega) hf]⟩
  · refine ⟨fuel, le_refl fuel, ?_⟩
    rw [activatorLoop_running env mc hco fuel (fun m hm hs => h ⟨m, hm, hs⟩)]

/-- The goroutine begins by creating the ticker, fetching the interface and
querying the gate: nothing else comes before the first query. -/
theorem activator_first_poll (env : ActivatorEnv) (mc : Ptr)
    (hco : ∀ t, env.GetContainerOrchestratorInterface t ≠ none) (fuel : Nat) (hf : 0 < fuel) :
    eventsBeforeFirstPoll (activator env mc fuel) =
      [.NewTicker, .GetContainerOrchestratorInterface] := by
  obtain ⟨k, rfl⟩ : ∃ k, fuel = k + 1 := ⟨fuel - 1, by omega⟩
  have ht := (iteration_events env mc hco 0 0).1
  have hsplit := List.take_append_drop 2 (activatorIteration env mc 0 0).1
  rw [ht] at hsplit
  unfold activator activatorLoop
  rcases hi : activatorIteration env mc 0 0 with ⟨evs, status, c⟩
  rw [hi] at hsplit
  simp only at hsplit
  rw [← hsplit]
  cases status <;> simp [eventsBeforeFirstPoll, List.takeWhile, Event.isPoll]

/-- With the gate disabled before tick `K`, no call of
`initDiskDecommController` is made up to tick `K`. -/
theorem enabledBefore_of_disabled (env : ActivatorEnv) (K : Nat)
    (hdis : ∀ t, t < K → env.IsFSSEnabled t = false) (m : Nat) (hm : m ≤ K) :
    env.enabledBefore m = 0 := by
  induction m with
  | zero => rfl
  | succ m ih => simp [ActivatorEnv.enabledBefore, ih (by omega), hdis m (by omega)]

/-- C6. With the gate disabled on the first `K` polls and enabled afterwards,
and `initDiskDecommController` failing on its first call and succeeding on its
second, the activator loop (given fuel for `K + 2` iterations or more) is left
after exactly `K + 2` gate polls, 2 activation attempts and `K + 1` ticker
receives, none of them before the first poll; more fuel changes nothing, so no
poll follows, and the goroutine ends by stopping the ticker. -/
theorem activator_K_disabled_then_retry (env : ActivatorEnv) (mc : Ptr) (K fuel : Nat) (e : Error)
    (hco : ∀ t, env.GetContainerOrchestratorInterface t ≠ none)
    (hdis : ∀ t, t < K → env.IsFSSEnabled t = false)
    (hen : ∀ t, K ≤ t → env.IsFSSEnabled t = true)
    (hfail : env.initDiskDecommController 0 = some e)
    (hok : env.initDiskDecommController 1 = none)
    (hfuel : K + 2 ≤ fuel) :
    (activatorLoop env mc fuel 0 0).status = .exited ∧
      (activatorLoop env mc fuel 0 0).ticks.length = K + 2 ∧
      (activatorLoop env mc fuel 0 0).polls = K + 2 ∧
      (activatorLoop env mc fuel 0 0).attempts = 2 ∧
      (activatorLoop env mc fuel 0 0).waits = K + 1 ∧
      Event.tickerC ∉ eventsBeforeFirstPoll (activator env mc fuel) ∧
      activatorLoop env mc fuel 0 0 = activatorLoop env mc (K + 2) 0 0 ∧
      (activator env mc fuel).getLast? = some .tickerStop := by
  have e0 : env.enabledBefore K = 0 := enabledBefore_of_disabled env K hdis K (le_refl K)
  have e1 : env.enabledBefore (K + 1) = 1 := by
    simp [ActivatorEnv.enabledBefore, e0, hen K (le_refl K)]
  have e2 : env.enabledBefore (K + 1 + 1) = 2 := by
    simp [ActivatorEnv.enabledBefore, e0, hen K (le_refl K), hen (K + 1) (by omega)]
  have hfirst : env.firstSuccess (K + 1) := by
    refine ⟨⟨hen (K + 1) (by omega), by rw [e1]; exact hok⟩, ?_⟩
    intro m hm hs
    by_cases hmK : m < K
    · have := hdis m hmK
      rw [hs.1] at this
      cases this
    · have hmeq : m = K := by omega
      subst hmeq
      have := hs.2
      rw [e0, hfail] at this
      cases this
  obtain ⟨c1, c2, c3⟩ := counts_of_exit env mc hco (K + 1) fuel (by omega) hfirst
  have hrun := activatorLoop_exits env mc hco (K + 1) fuel (by omega) hfirst
  have hrun2 := activatorLoop_exits env mc hco (K + 1) (K + 2) (by omega) hfirst
  refine ⟨by rw [hrun], by rw [hrun]; simp, c1, by rw [c2, e2], c3, ?_, by rw [hrun, hrun2], ?_⟩
  · rw [activator_first_poll env mc hco fuel (by omega)]
    simp
  · unfold activator
    rw [hrun]
    exact List.getLast?_concat _

theorem activator_K_disabled_then_retry_witness :
    (activatorLoop envTwoDisabled (some 3) 7 0 0).status = .exited ∧
      (activatorLoop envTwoDisabled (some 3) 7 0 0).ticks.length = 2 + 2 ∧
      (activatorLoop envTwoDisabled (some 3) 7 0 0).polls = 2 + 2 ∧
      (activatorLoop envTwoDisabled (some 3) 7 0 0).attempts = 2 ∧
      (activatorLoop envTwoDisabled (some 3) 7 0 0).waits = 2 + 1 ∧
      Event.tickerC ∉ eventsBeforeFirstPoll (activator envTwoDisabled (some 3) 7) ∧
      activatorLoop envTwoDisabled (some 3) 7 0 0 =
        activatorLoop envTwoDisabled (some 3) (2 + 2) 0 0 ∧
      (activator envTwoDisabled (some 3) 7).getLast? = some .tickerStop :=
  activator_K_disabled_then_retry envTwoDisabled (some 3) 2 7 ⟨5⟩
    (fun _ => by simp [envTwoDisabled])
    (fun t ht => by simp [envTwoDisabled]; omega)
    (fun t ht => by simp [envTwoDisabled]; omega)
    rfl rfl (by decide)

/-- An iteration begun is the first of the iterations of the run. -/
theorem activatorLoop_head (env : ActivatorEnv) (mc : Ptr) (fuel t c : Nat) :
    ∃ tl, (activatorLoop env mc (fuel + 1) t c).ticks = (activatorIteration env mc t c).1 :: tl := by
  unfold activatorLoop
  rcases activatorIteration env mc t c with ⟨evs, status, c1⟩
  cases status <;> simp

/-- With fuel for tick `k` and no success before it, tick `k` is reached: the
run holds the iterations of ticks `0 .. k`, in order. -/
theorem activatorLoop_reaches (env : ActivatorEnv) (mc : Ptr)
    (hco : ∀ t, env.GetContainerOrchestratorInterface t ≠ none)
    (fuel k : Nat) (hk : k < fuel) (h : ∀ m, m < k → ¬ env.succeedsAt m) :
    (activatorLoop env mc fuel 0 0).ticks[k]? =
      some (activatorIteration env mc k (env.enabledBefore k)).1 := by
  obtain ⟨j, rfl⟩ : ∃ j, fuel = k + (j + 1) := ⟨fuel - k - 1, by omega⟩
  have hs := activatorLoop_skip env mc hco k (j + 1) 0 (fun m _ h2 => h m (by omega))
  have hs1 : activatorLoop env mc (k + (j + 1)) 0 0 = _ := hs
  obtain ⟨tl, htl⟩ := activatorLoop_head env mc j (0 + k) (env.enabledBefore (0 + k))
  rw [hs1, htl]
  simp only [Nat.zero_add]
  rw [List.getElem?_append_right (by simp)]
  simp

/-- Counts of a run that has not met a success: one gate query and one
ticker receive per tick, one call of `initDiskDecommController` per enabled
tick. -/
theorem counts_of_running (env : ActivatorEnv) (mc : Ptr)
    (hco : ∀ t, env.GetContainerOrchestratorInterface t ≠ none)
    (n : Nat) (h : ∀ m, m < n → ¬ env.succeedsAt m) :
    (activatorLoop env mc n 0 0).status = .running ∧
      (activatorLoop env mc n 0 0).ticks.length = n ∧
      (activatorLoop env mc n 0 0).polls = n ∧
      (activatorLoop env mc n 0 0).attempts = env.enabledBefore n ∧
      (activatorLoop env mc n 0 0).waits = n := by
  rw [activatorLoop_running env mc hco n h]
  refine ⟨rfl, by simp, ?_, ?_, ?_⟩
  · simp only [ActivatorRun.polls]
    rw [countP_ticks _ _ (fun _ => 1) _ (fun k _ => (iteration_events env mc hco k _).2.1)]
    simp
  · simp only [ActivatorRun.attempts]
    rw [countP_ticks _ _ (fun k => if env.IsFSSEnabled k then 1 else 0) _
      (fun k _ => (iteration_events env mc hco k _).2.2.1)]
    exact sum_enabled env n
  · simp only [ActivatorRun.waits]
    rw [countP_ticks _ _ (fun _ => 1) _ ?_]
    · simp
    · intro k hk
      rw [(iteration_events env mc hco k _).2.2.2.1,
        iteration_of_not_succeedsAt env mc hco k (h k hk)]
      simp

/-- C9. Whatever the gate answers tick by tick and whatever
`initDiskDecommController` returns call by call: every iteration queries the
gate afresh and calls `initDiskDecommController` only if that answer was
enabled; the loop is left on tick `n` exactly when `n` is the first tick on
which the gate is enabled and the call succeeds; and on every earlier tick the
loop is still running, ends the iteration with one receive from the ticker
and then polls again.  The last part holds whether or not a success ever
comes: every tick with no success before it is reached and polls, every tick
without success up to it ends with one ticker receive and leaves the loop
running, and a run that meets no success makes one poll and one ticker
receive per tick and never exits. -/
theorem activator_exits_iff_firstSuccess (env : ActivatorEnv) (mc : Ptr)
    (hco : ∀ t, env.GetContainerOrchestratorInterface t ≠ none) :
    (∀ fuel k evs, (activatorLoop env mc fuel 0 0).ticks[k]? = some evs →
      evs.take 2 = [.GetContainerOrchestratorInterface, .IsFSSEnabled (env.IsFSSEnabled k)] ∧
      evs.countP Event.isPoll = 1 ∧
      (∀ p err, Event.initDiskDecommController p err ∈ evs →
        env.IsFSSEnabled k = true ∧ Event.IsFSSEnabled true ∈ evs)) ∧
    (∀ n fuel, n < fuel →
      (((activatorLoop env mc fuel 0 0).status = .exited ∧
          (activatorLoop env mc fuel 0 0).ticks.length = n + 1) ↔ env.firstSuccess n)) ∧
    (∀ n fuel k, n < fuel → env.firstSuccess n → k < n →
      (activatorLoop env mc (k + 1) 0 0).status = .running ∧
      ∃ evs next, (activatorLoop env mc fuel 0 0).ticks[k]? = some evs ∧
        (activatorLoop env mc fuel 0 0).ticks[k + 1]? = some next ∧
        evs.getLast? = some .tickerC ∧ evs.countP Event.isWait = 1 ∧
        next.take 2 =
          [.GetContainerOrchestratorInterface, .IsFSSEnabled (env.IsFSSEnabled (k + 1))]) ∧
    (∀ fuel k, k < fuel → (∀ m, m < k → ¬ env.succeedsAt m) →
      ∃ evs, (activatorLoop env mc fuel 0 0).ticks[k]? = some evs ∧
        evs.take 2 = [.GetContainerOrchestratorInterface, .IsFSSEnabled (env.IsFSSEnabled k)] ∧
        evs.countP Event.isPoll = 1 ∧
        (¬ env.succeedsAt k →
          (activatorLoop env mc (k + 1) 0 0).status = .running ∧
          evs.getLast? = some .tickerC ∧ evs.countP Event.isWait = 1 ∧
          (k + 1 < fuel →
            ∃ next, (activatorLoop env mc fuel 0 0).ticks[k + 1]? = some next ∧
              next.take 2 =
                [.GetContainerOrchestratorInterface,
                  .IsFSSEnabled (env.IsFSSEnabled (k + 1))]))) ∧
    (∀ fuel, (∀ m, m < fuel → ¬ env.succeedsAt m) →
      (activatorLoop env mc fuel 0 0).status = .running ∧
      (activatorLoop env mc fuel 0 0).ticks.length = fuel ∧
      (activatorLoop env mc fuel 0 0).polls = fuel ∧
      (activatorLoop env mc fuel 0 0).attempts = env.enabledBefore fuel ∧
      (activatorLoop env mc fuel 0 0).waits = fuel) := by
  refine ⟨?_, ?_, ?_, ?_, ?_⟩
  · intro fuel k evs hk
    obtain ⟨j, -, hj⟩ := activatorLoop_ticks env mc hco fuel
    rw [hj, List.getElem?_map] at hk
    by_cases hkj : k < j
    · rw [List.getElem?_range hkj] at hk
      simp only [Option.map_some', Option.some.injEq] at hk
      subst hk
      have hev := iteration_events env mc hco k (env.enabledBefore k)
      exact ⟨hev.1, hev.2.1, hev.2.2.2.2.2⟩
    · rw [List.getElem?_eq_none (by simpa using hkj)] at hk
      simp at hk
  · intro n fuel hn
    constructor
    · rintro ⟨hs, hl⟩
      by_cases h : ∃ m, m < fuel ∧ env.succeedsAt m
      · obtain ⟨m, hm, hsm⟩ := h
        obtain ⟨m1, hm1, hf⟩ := exists_firstSuccess env m ⟨m, le_refl m, hsm⟩
        rw [activatorLoop_exits env mc hco m1 fuel (by omega) hf] at hl
        simp at hl
        subst hl
        exact hf
      · rw [activatorLoop_running env mc hco fuel (fun m hm hsm => h ⟨m, hm, hsm⟩)] at hs
        cases hs
    · intro hf
      rw [activatorLoop_exits env mc hco n fuel hn hf]
      simp
  · intro n fuel k hn hf hk
    refine ⟨?_, ?_⟩
    · rw [activatorLoop_running env mc hco (k + 1) (fun m hm => hf.2 m (by omega))]
    · rw [activatorLoop_exits env mc hco n fuel hn hf]
      refine ⟨(activatorIteration env mc k (env.enabledBefore k)).1,
        (activatorIteration env mc (k + 1) (env.enabledBefore (k + 1))).1, ?_, ?_, ?_, ?_, ?_⟩
      · rw [List.getElem?_map, List.getElem?_range (by omega)]
        rfl
      · rw [List.getElem?_map, List.getElem?_range (by omega)]
        rfl
      · exact (iteration_events env mc hco k _).2.2.2.2.1
          (by rw [iteration_of_not_succeedsAt env mc hco k (hf.2 k hk)])
      · rw [(iteration_events env mc hco k _).2.2.2.1,
          iteration_of_not_succeedsAt env mc hco k (hf.2 k hk)]
        simp
      · exact (iteration_events env mc hco (k + 1) _).1
  · intro fuel k hk hno
    refine ⟨(activatorIteration env mc k (env.enabledBefore k)).1,
      activatorLoop_reaches env mc hco fuel k hk hno,
      (iteration_events env mc hco k _).1, (iteration_events env mc hco k _).2.1, ?_⟩
    intro hnk
    have hno1 : ∀ m, m < k + 1 → ¬ env.succeedsAt m := by
      intro m hm
      by_cases hmk : m < k
      · exact hno m hmk
      · have : m = k := by omega
        subst this
        exact hnk
    refine ⟨(counts_of_running env mc hco (k + 1) hno1).1, ?_, ?_, ?_⟩
    · exact (iteration_events env mc hco k _).2.2.2.2.1
        (by rw [iteration_of_not_succeedsAt env mc hco k hnk])
    · rw [(iteration_events env mc hco k _).2.2.2.1,
        iteration_of_not_succeedsAt env mc hco k hnk]
      simp
    · intro hk1
      exact ⟨(activatorIteration env mc (k + 1) (env.enabledBefore (k + 1))).1,
        activatorLoop_reaches env mc hco fuel (k + 1) hk1 hno1,
        (iteration_events env mc hco (k + 1) _).1⟩
  · intro fuel hno
    exact counts_of_running env mc hco fuel hno

theorem activator_exits_iff_firstSuccess_witness :
    (∀ t, envTwoDisabled.GetContainerOrchestratorInterface t ≠ none) ∧
    envTwoDisabled.firstSuccess 3 ∧
    ((activatorLoop envTwoDisabled (some 3) 9 0 0).status = .exited ∧
      (activatorLoop envTwoDisabled (some 3) 9 0 0).ticks.length = 3 + 1) ∧
    (∀ m, m < 6 → ¬ envNeverEnabled.succeedsAt m) ∧
    ((activatorLoop envNeverEnabled (some 3) 6 0 0).status = .running ∧
      (activatorLoop envNeverEnabled (some 3) 6 0 0).ticks.length = 6 ∧
      (activatorLoop envNeverEnabled (some 3) 6 0 0).polls = 6 ∧
      (activatorLoop envNeverEnabled (some 3) 6 0 0).attempts =
        envNeverEnabled.enabledBefore 6 ∧
      (activatorLoop envNeverEnabled (some 3) 6 0 0).waits = 6) :=
  ⟨fun _ => by simp [envTwoDisabled], by decide,
    ((activator_exits_iff_firstSuccess envTwoDisabled (some 3)
      (fun _ => by simp [envTwoDisabled])).2.1 3 9 (by decide)).mpr (by decide),
    by decide,
    (activator_exits_iff_firstSuccess envNeverEnabled (some 3)
      (fun _ => by simp [envNeverEnabled])).2.2.2.2 6 (by decide)⟩

/-! ## Theorems: `ResetVC` next to a concurrent reader -/

/-- The three stores made one after the other are the stores of `ResetVC`. -/
theorem finishFrom_atStoreSp (v : Nat) (st : State) :
    finishFrom v .atStoreSp st = (ResetVC (fun _ => none) (some v) st).state := by
  obtain ⟨svc, heap⟩ := st
  obtain ⟨sp, sc, mc, cid⟩ := svc
  cases sp <;> cases sc <;> cases mc <;> simp [finishFrom, resetLocal, ResetVC]

/-- Making the store at `pc` does not change what the remaining stores lead
to. -/
theorem finishFrom_resetLocal (v : Nat) (pc : ResetPc) (st : State) :
    finishFrom v (resetLocal v pc st).1 (resetLocal v pc st).2 = finishFrom v pc st := by
  obtain ⟨svc, heap⟩ := st
  obtain ⟨sp, sc, mc, cid⟩ := svc
  cases pc <;> cases sp <;> cases sc <;> cases mc <;> simp [finishFrom, resetLocal]

/-- Before the deferred `Unlock` no store is left. -/
theorem finishFrom_atUnlock (v : Nat) (st : State) : finishFrom v .atUnlock st = st := by
  simp [finishFrom, resetLocal]

/-- The invariant holds at the start. -/
theorem Inv_init (v : Nat) (prog : List Field) (st : State) :
    Inv v prog st (Sys.init true prog st) := by
  simp [Inv, Sys.init]

/-- After a store the goroutine is still inside the critical section. -/
theorem resetLocal_pc (v : Nat) (pc : ResetPc) (st : State)
    (hpc : pc = .atStoreSp ∨ pc = .atStoreSc ∨ pc = .atStoreMig) :
    (resetLocal v pc st).1 = .atStoreSc ∨ (resetLocal v pc st).1 = .atStoreMig ∨
      (resetLocal v pc st).1 = .atUnlock := by
  obtain ⟨svc, heap⟩ := st
  obtain ⟨sp, sc, mc, cid⟩ := svc
  rcases hpc with h | h | h <;> subst h <;> cases sp <;> cases sc <;> cases mc <;>
    simp [resetLocal]

/-- A store keeps the invariant. -/
theorem Inv_store (v : Nat) (prog : List Field) (st0 st : State) (mutex : Option Thread)
    (pc : ResetPc) (rdpc : ReaderPc) (obs : List (Option Ptr))
    (hpc : pc = .atStoreSp ∨ pc = .atStoreSc ∨ pc = .atStoreMig)
    (h : Inv v prog st0 ⟨st, mutex, pc, rdpc, obs⟩) :
    Inv v prog st0 ⟨(resetLocal v pc st).2, mutex, (resetLocal v pc st).1, rdpc, obs⟩ := by
  have hm : mutex = some .resetter ∧
      finishFrom v pc st = (ResetVC (fun _ => none) (some v) st0).state := by
    rcases hpc with e | e | e <;> subst e <;> exact h.1
  obtain ⟨hm1, hm2⟩ := hm
  subst hm1
  have hf := finishFrom_resetLocal v pc st
  rw [hm2] at hf
  have hr := h.2
  refine ⟨?_, ?_⟩
  · rcases resetLocal_pc v pc st hpc with e | e | e <;> simp only [e] at hf ⊢ <;> exact ⟨trivial, hf⟩
  · cases rdpc <;> simp_all

/-- A step of `ResetVC` keeps the invariant. -/
theorem Inv_stepResetter (v : Nat) (prog : List Field) (st0 : State) (s : Sys)
    (h : Inv v prog st0 s) : Inv v prog st0 (stepResetter v s) := by
  obtain ⟨st, mutex, rpc, rdpc, obs⟩ := s
  cases rpc with
  | atLock =>
    cases mutex with
    | some t => simpa [stepResetter] using h
    | none =>
      obtain ⟨⟨h1, -⟩, h2⟩ := h
      simp only at h1
      subst h1
      refine ⟨⟨rfl, finishFrom_atStoreSp v st⟩, ?_⟩
      cases rdpc <;> simp_all [stepResetter]
  | atStoreSp => exact Inv_store v prog st0 st mutex _ rdpc obs (Or.inl rfl) h
  | atStoreSc => exact Inv_store v prog st0 st mutex _ rdpc obs (Or.inr (Or.inl rfl)) h
  | atStoreMig => exact Inv_store v prog st0 st mutex _ rdpc obs (Or.inr (Or.inr rfl)) h
  | atUnlock =>
    obtain ⟨⟨h1, h3⟩, h2⟩ := h
    simp only at h1 h3
    subst h1
    rw [finishFrom_atUnlock] at h3
    refine ⟨⟨h3, by simp [stepResetter]⟩, ?_⟩
    cases rdpc <;> simp_all [stepResetter]
  | done => simpa [stepResetter] using h

/-- While the reader holds the lock, `ResetVC` is before its `Lock` or has
returned: the state is the one before or the one after the call. -/
theorem Inv_reader_inside (v : Nat) (prog : List Field) (st0 : State) (s : Sys)
    (h : Inv v prog st0 s) (hm : s.mutex = some .reader) :
    s.st = st0 ∨ s.st = (ResetVC (fun _ => none) (some v) st0).state := by
  obtain ⟨st, mutex, rpc, rdpc, obs⟩ := s
  simp only at hm
  subst hm
  have h1 := h.1
  cases rpc <;> simp_all

/-- A step of a reader that takes the lock keeps the invariant. -/
theorem Inv_stepReader (v : Nat) (prog : List Field) (st0 : State) (s : Sys)
    (h : Inv v prog st0 s) : Inv v prog st0 (stepReader true s) := by
  have hin := Inv_reader_inside v prog st0 s h
  obtain ⟨st, mutex, rpc, rdpc, obs⟩ := s
  cases rdpc with
  | atLock todo =>
    cases mutex with
    | some t => simpa [stepReader] using h
    | none =>
      obtain ⟨h1, h2, h3, -⟩ := h
      simp only at h2 h3
      subst h2 h3
      refine ⟨?_, rfl, [], rfl, rfl⟩
      cases rpc <;> simp_all [stepReader]
  | reading todo =>
    obtain ⟨h1, h2, made, h3, h4⟩ := h
    simp only at h2 h3 h4
    subst h2 h3 h4
    cases todo with
    | nil =>
      refine ⟨?_, rfl, ?_⟩
      · cases rpc <;> simp_all [stepReader]
      · simp [stepReader]
    | cons f todo =>
      refine ⟨?_, rfl, made ++ [f], ?_, ?_⟩
      · cases rpc <;> simp_all [stepReader]
      · simp
      · simp [stepReader]
  | atUnlock =>
    obtain ⟨h1, h2, h3⟩ := h
    simp only at h2 h3
    subst h2 h3
    refine ⟨?_, by simp [stepReader], ?_⟩
    · cases rpc <;> simp_all [stepReader]
    · rcases hin rfl with e | e
      · left; simp only at e; simp [stepReader, e]
      · right; simp only at e; simp [stepReader, e]
  | done => simpa [stepReader] using h

/-- The invariant holds along every schedule. -/
theorem Inv_run (v : Nat) (prog : List Field) (st0 : State) (sched : List Thread) (s : Sys)
    (h : Inv v prog st0 s) : Inv v prog st0 (run v true sched s) := by
  induction sched generalizing s with
  | nil => exact h
  | cons t ts ih =>
    simp only [run, List.foldl_cons]
    apply ih
    cases t
    · exact Inv_stepResetter v prog st0 s h
    · exact Inv_stepReader v prog st0 s h

/-- What a locking reader has loaded so far was all loaded from the state
before `ResetVC` or all from the state after it. -/
theorem Inv_obs (v : Nat) (prog : List Field) (st0 : State) (s : Sys)
    (h : Inv v prog st0 s) :
    s.obs = (prog.take s.obs.length).map (readField st0) ∨
      s.obs = (prog.take s.obs.length).map
        (readField (ResetVC (fun _ => none) (some v) st0).state) := by
  have hin := Inv_reader_inside v prog st0 s h
  obtain ⟨st, mutex, rpc, rdpc, obs⟩ := s
  cases rdpc with
  | atLock todo =>
    obtain ⟨-, -, h3, -⟩ := h
    simp only at h3
    subst h3
    simp
  | reading todo =>
    obtain ⟨-, h2, made, h3, h4⟩ := h
    simp only at h2 h3 h4
    subst h2 h3 h4
    rcases hin rfl with e | e <;> simp only at e <;> subst e
    · left; simp
    · right; simp
  | atUnlock =>
    obtain ⟨-, h2, h3⟩ := h
    simp only at h2 h3
    subst h2 h3
    rcases hin rfl with e | e <;> simp only at e <;> subst e
    · left; simp
    · right; simp
  | done =>
    obtain ⟨-, -, h3⟩ := h
    simp only at h3
    rcases h3 with e | e <;> subst e
    · left; simp
    · right; simp


/-- When the three controllers hold `h`, every load gives `h`. -/
theorem readField_of_holdsAll (st : State) (h : Ptr) (hh : st.holdsAll h) (f : Field) :
    readField st f = some h := by
  obtain ⟨h1, h2, h3⟩ := hh
  cases f
  · exact h1
  · exact h2
  · exact h3

/-- C8 (as stated, refuted). A reader that takes no lock, as
`GetStoragePoolService` and the accessors take none, can load the capacity
controller's handle after the store of line 173 and the other two before the
stores of lines 174-175: from a populated registry whose controllers all hold
handle 7, with `ResetVC` called with handle 9, it observes 9, 7, 7. -/
theorem unlocked_reader_observes_mixed :
    sharedState.service.populated ∧ sharedState.holdsAll (some 7) ∧
      (run 9 false [.resetter, .resetter, .reader, .reader, .reader]
        (Sys.init false [.sp, .sc, .mig] sharedState)).obs =
        [some (some 9), some (some 7), some (some 7)] := by
  decide

/-- C8 (amended). A reader that holds `defaultStoragePoolServiceLock` around
its loads observes, on every schedule against a `ResetVC` with a valid
handle, only handles of the state before the call or only handles of the state
after it; so on a populated registry whose controllers held one handle it
never observes the new handle on one controller and the old on another. -/
theorem locked_reader_never_mixed (v : Nat) (prog : List Field) (st : State)
    (sched : List Thread) :
    ((run v true sched (Sys.init true prog st)).obs =
        (prog.take (run v true sched (Sys.init true prog st)).obs.length).map (readField st) ∨
      (run v true sched (Sys.init true prog st)).obs =
        (prog.take (run v true sched (Sys.init true prog st)).obs.length).map
          (readField (ResetVC (fun _ => none) (some v) st).state)) ∧
    (∀ old, st.service.populated → st.holdsAll old → old ≠ some v →
      ¬ (some (some v) ∈ (run v true sched (Sys.init true prog st)).obs ∧
          some old ∈ (run v true sched (Sys.init true prog st)).obs)) := by
  have hobs := Inv_obs v prog st _ (Inv_run v prog st sched _ (Inv_init v prog st))
  refine ⟨hobs, ?_⟩
  intro old hp hh hne ⟨hnew, hold⟩
  rcases hobs with e | e
  · rw [e] at hnew
    obtain ⟨f, -, hf⟩ := List.mem_map.mp hnew
    rw [readField_of_holdsAll st old hh f] at hf
    exact hne (Option.some.inj hf)
  · rw [e] at hold
    obtain ⟨f, -, hf⟩ := List.mem_map.mp hold
    rw [readField_of_holdsAll _ (some v) (ResetVC_valid _ v st hp rfl).2.2 f] at hf
    exact hne (Option.some.inj hf).symm

theorem locked_reader_never_mixed_witness :
    (sharedState.service.populated ∧ sharedState.holdsAll (some 7)) ∧
    (run 9 true [.resetter, .resetter, .reader, .reader, .reader, .resetter, .resetter,
        .resetter, .reader, .reader, .reader, .reader, .reader]
      (Sys.init true [.sp, .sc, .mig] sharedState)).obs =
      [some (some 9), some (some 9), some (some 9)] ∧
    ¬ (some (some 9) ∈ (run 9 true [.resetter, .resetter, .reader, .reader, .reader, .resetter,
          .resetter, .resetter, .reader, .reader, .reader, .reader, .reader]
        (Sys.init true [.sp, .sc, .mig] sharedState)).obs ∧
      some (some 7) ∈ (run 9 true [.resetter, .resetter, .reader, .reader, .reader, .resetter,
          .resetter, .resetter, .reader, .reader, .reader, .reader, .reader]
        (Sys.init true [.sp, .sc, .mig] sharedState)).obs) :=
  ⟨⟨by decide, by decide⟩, by decide,
    (locked_reader_never_mixed 9 [.sp, .sc, .mig] sharedState _).2 (some 7)
      (by decide) (by decide) (by decide)⟩

end StoragePool
